import Mathlib

/-!
Verification of `kalliope/trigger/snowboy/snowboydecoder.py`.

The Python module is shallowly embedded below: bytes are modelled as `Nat`,
byte strings as `List Nat`, sensitivities (Python floats that are only stored
and joined, never computed with) as `ℚ`, callbacks as `Option Nat` identifiers
(`None` or a callback id).  Fallible code returns `Except String`.
-/

namespace Snowboy

/-! ### RingBuffer (snowboydecoder.py lines 21-42)

`RingBuffer.__init__` wraps `collections.deque(maxlen=size)`.  A `deque` with
`maxlen` appends elements one at a time and silently evicts from the opposite
end whenever the length would exceed `maxlen`. -/

/-- One `deque.append` with `maxlen = size`: append `x` at the tail and, if the
length now exceeds `size`, evict the oldest elements from the head. -/
def dequePush (size : Nat) (b : List Nat) (x : Nat) : List Nat :=
  if size < (b ++ [x]).length then (b ++ [x]).drop ((b ++ [x]).length - size)
  else b ++ [x]

/-- `deque.extend(data)` with `maxlen = size`: push the elements of `data`
one at a time (CPython extends element-wise, evicting as it goes). -/
def dequeExtend (size : Nat) (b : List Nat) (data : List Nat) : List Nat :=
  data.foldl (dequePush size) b

structure RingBuffer where
  size : Nat
  buf : List Nat
  paused : Bool
  deriving Repr, DecidableEq

/-- `RingBuffer.__init__(size)`: empty deque with `maxlen = size`, unpaused. -/
def RingBuffer.init (size : Nat) : RingBuffer :=
  { size := size, buf := [], paused := false }

/-- `RingBuffer.extend`: adds data to the end of buffer, unless paused. -/
def RingBuffer.extend (rb : RingBuffer) (data : List Nat) : RingBuffer :=
  if rb.paused then rb else { rb with buf := dequeExtend rb.size rb.buf data }

/-- `RingBuffer.get`: retrieves data from the beginning of buffer and clears it. -/
def RingBuffer.get (rb : RingBuffer) : List Nat × RingBuffer :=
  (rb.buf, { rb with buf := [] })

/-- `RingBuffer.pause`. -/
def RingBuffer.pause (rb : RingBuffer) : RingBuffer :=
  { rb with paused := true }

/-- `RingBuffer.unpause`. -/
def RingBuffer.unpause (rb : RingBuffer) : RingBuffer :=
  { rb with paused := false }

/-- The last `C` elements of `l` (all of `l` when `l.length ≤ C`). -/
def lastN (C : Nat) (l : List Nat) : List Nat := l.drop (l.length - C)

/-! Characterization of the deque semantics. -/

theorem dequePush_eq_lastN (size : Nat) (b : List Nat) (x : Nat) :
    dequePush size b x = lastN size (b ++ [x]) := by
  unfold dequePush lastN
  by_cases h : size < (b ++ [x]).length
  · rw [if_pos h]
  · rw [if_neg h]
    have h0 : (b ++ [x]).length - size = 0 := by
      simp only [List.length_append, List.length_cons] at *
      omega
    rw [h0, List.drop_zero]

theorem dequePush_length_le (size : Nat) (b : List Nat) (x : Nat) :
    (dequePush size b x).length ≤ size := by
  rw [dequePush_eq_lastN size b x]
  unfold lastN
  simp only [List.length_drop, List.length_append, List.length_cons]
  omega

theorem lastN_lastN_append (size : Nat) (l m : List Nat) :
    lastN size (lastN size l ++ m) = lastN size (l ++ m) := by
  unfold lastN
  by_cases h : l.length ≤ size
  · have h0 : l.length - size = 0 := by omega
    simp [h0]
  · push_neg at h
    have hk : l.length - size ≤ l.length := Nat.sub_le _ _
    have e1 : (l.drop (l.length - size) ++ m).length - size = m.length := by
      simp only [List.length_append, List.length_drop]; omega
    have e2 : (l ++ m).length - size = (l.length - size) + m.length := by
      simp only [List.length_append]; omega
    rw [e1, e2, ← List.drop_drop, List.drop_append_of_le_length hk]

theorem dequeExtend_eq_lastN (size : Nat) :
    ∀ (data b : List Nat), b.length ≤ size →
      dequeExtend size b data = lastN size (b ++ data) := by
  intro data
  induction data with
  | nil =>
    intro b hb
    unfold dequeExtend lastN
    have h0 : b.length - size = 0 := by omega
    simp [h0]
  | cons x xs ih =>
    intro b hb
    have hstep : dequeExtend size b (x :: xs) = dequeExtend size (dequePush size b x) xs := by
      unfold dequeExtend
      simp [List.foldl_cons]
    rw [hstep, ih _ (dequePush_length_le size b x),
        dequePush_eq_lastN size b x, lastN_lastN_append]
    simp

theorem dequeExtend_length_le (size : Nat) (b data : List Nat)
    (hb : b.length ≤ size) : (dequeExtend size b data).length ≤ size := by
  rw [dequeExtend_eq_lastN size data b hb]
  unfold lastN
  simp only [List.length_drop]
  omega

/-- A whole sequence of producer `extend` calls. -/
def RingBuffer.extendAll (rb : RingBuffer) (datas : List (List Nat)) : RingBuffer :=
  datas.foldl RingBuffer.extend rb

theorem extend_size_paused (rb : RingBuffer) (d : List Nat) :
    (rb.extend d).size = rb.size ∧ (rb.extend d).paused = rb.paused := by
  unfold RingBuffer.extend
  by_cases h : rb.paused <;> simp [h]

theorem extendAll_buf (datas : List (List Nat)) :
    ∀ rb : RingBuffer, rb.paused = false → rb.buf.length ≤ rb.size →
      ((rb.extendAll datas).buf = lastN rb.size (rb.buf ++ datas.flatten) ∧
       (rb.extendAll datas).size = rb.size ∧
       (rb.extendAll datas).paused = false) := by
  induction datas with
  | nil =>
    intro rb hp hb
    unfold RingBuffer.extendAll lastN
    have h0 : rb.buf.length - rb.size = 0 := by omega
    simp [h0, hp]
  | cons d ds ih =>
    intro rb hp hb
    have hstep : rb.extendAll (d :: ds) = (rb.extend d).extendAll ds := by
      unfold RingBuffer.extendAll
      simp [List.foldl_cons]
    have hext : rb.extend d
        = { rb with buf := dequeExtend rb.size rb.buf d } := by
      unfold RingBuffer.extend
      simp [hp]
    have hlen : (dequeExtend rb.size rb.buf d).length ≤ rb.size :=
      dequeExtend_length_le rb.size rb.buf d hb
    have := ih { rb with buf := dequeExtend rb.size rb.buf d } (by simp [hp]) (by simpa using hlen)
    rw [hstep, hext]
    refine ⟨?_, this.2⟩
    rw [this.1]
    simp only
    rw [dequeExtend_eq_lastN rb.size d rb.buf hb, lastN_lastN_append]
    simp

theorem extendAll_buf_init (C : Nat) (datas : List (List Nat)) :
    (((RingBuffer.init C).extendAll datas)).buf
      = datas.flatten.drop (datas.flatten.length - C) := by
  have h := extendAll_buf datas (RingBuffer.init C) rfl (by simp [RingBuffer.init])
  rw [h.1]
  simp [RingBuffer.init, lastN]

/-! ### HotwordDetector session state (lines 58-72, 198-214)

`__init__` sets `kill_received = False` and `paused = False` and opens the
audio stream; `terminate` stops and closes the stream and terminates the
audio handle — it assigns no other attribute; `pause`/`unpause` set the
detector's `paused` flag and forward to the ring buffer. -/

structure HotwordDetector where
  kill_received : Bool
  paused : Bool
  ring_buffer : RingBuffer
  stream_open : Bool
  audio_open : Bool
  deriving Repr, DecidableEq

/-- The session state right after `__init__` (lines 67-72, 112-115). -/
def HotwordDetector.initState (rbSize : Nat) : HotwordDetector :=
  { kill_received := false, paused := false,
    ring_buffer := RingBuffer.init rbSize, stream_open := true, audio_open := true }

/-- `terminate` (lines 198-206): `stop_stream`, `close`, `audio.terminate`.
No assignment to `kill_received` (or any other attribute) occurs. -/
def HotwordDetector.terminate (d : HotwordDetector) : HotwordDetector :=
  { d with stream_open := false, audio_open := false }

/-- `HotwordDetector.pause` (lines 208-210). -/
def HotwordDetector.pauseD (d : HotwordDetector) : HotwordDetector :=
  { d with paused := true, ring_buffer := d.ring_buffer.pause }

/-- `HotwordDetector.unpause` (lines 212-214). -/
def HotwordDetector.unpauseD (d : HotwordDetector) : HotwordDetector :=
  { d with paused := false, ring_buffer := d.ring_buffer.unpause }

/-! ### Sensitivity normalization (`__init__`, lines 79-110) -/

/-- The `while not sensitivity_match_hotwords` loop (lines 99-103): append the
default `0.5` and stop once the list length reaches `num`.  The source enters
this loop only when `sensitivity.length < num` (longer lists were already
rejected by the assert at lines 93-96, equal lengths skip the branch), so it
runs exactly `num - length` times and `num` units of fuel always suffice;
the fuel-exhausted case is unreachable from the call site. -/
def padLoopF : Nat → Nat → List ℚ → List ℚ
  | 0, _, s => s
  | fuel + 1, num, s =>
    if (s ++ [(1 : ℚ)/2]).length = num then s ++ [(1 : ℚ)/2]
    else padLoopF fuel num (s ++ [(1 : ℚ)/2])

def padLoop (num : Nat) (s : List ℚ) : List ℚ := padLoopF num num s

/-- Lines 93-110 of `__init__`: `numModels = len(decoder_model)` (after the
scalar-to-list wrap of lines 81-82), `numHotwords = detector.NumHotwords()`.
The always-false assert at lines 94-96 (reached exactly when
`len(sensitivity) > num_hotwords`) raises `AssertionError`, modelled as
`Except.error`; otherwise the final sensitivity list — the one joined into
`sensitivity_str` and handed to `SetSensitivity` at line 110 — is returned. -/
def initSensitivity (numModels numHotwords : Nat) (sensitivity : List ℚ) :
    Except String (List ℚ) :=
  if numHotwords < sensitivity.length then
    Except.error "number of hotwords in decoder_model and sensitivity does not match"
  else
    let s1 := if sensitivity.length ≠ numHotwords then padLoop numHotwords sensitivity
              else sensitivity
    let s2 := if 1 < numModels ∧ s1.length = 1 then (List.replicate numHotwords s1).flatten
              else s1
    Except.ok s2

/-- Lines 109-110: `self.detector.SetSensitivity(...)` is invoked iff the
final sensitivity list is nonempty. -/
def callsSetSensitivity (numModels numHotwords : Nat) (sensitivity : List ℚ) : Bool :=
  match initSensitivity numModels numHotwords sensitivity with
  | Except.ok l => decide (l.length ≠ 0)
  | Except.error _ => false

/-! ### open_audio retry (lines 117-138) -/

/-- `open_audio(audio_callback, i)` with attempt outcomes given by the oracle
`ok` (`ok i = true` iff the `audio.open` call at recursion depth `i`
succeeds).  Returns the sleep durations in order, the number of `open`
attempts made, and whether a stream was obtained (`false` models raising
`SnowboyOpenAudioException` at lines 130-134).  The source recursion starts
at `i = 0` and gives up at `i = 5`, so at most 6 attempts occur and fuel `6`
always suffices from the entry point; the fuel-exhausted case is
unreachable. -/
def openAudioF (ok : Nat → Bool) : Nat → Nat → List Nat × Nat × Bool
  | 0, _ => ([], 0, false)
  | fuel + 1, i =>
    if ok i then ([], 1, true)
    else if i = 5 then ([], 1, false)
    else
      let r := openAudioF ok fuel (i + 1)
      ((i + 1) :: r.1, r.2.1 + 1, r.2.2)

/-- `open_audio(audio_callback)` with the default `i = 0` (line 115). -/
def open_audio (ok : Nat → Bool) : List Nat × Nat × Bool := openAudioF ok 6 0

/-! ### Callback normalization and the detection loop (`run`, lines 140-196) -/

/-- `detected_callback` as passed to `__init__`: either a bare value
(`None` or a single function) or a Python list of such values.  Callback
functions are modelled by `Nat` identifiers. -/
inductive CallbackConfig where
  | single : Option Nat → CallbackConfig
  | list : List (Option Nat) → CallbackConfig
  deriving Repr, DecidableEq

/-- Lines 161-165: wrap a non-list `detected_callback` into a one-element
list, then broadcast a length-one list over all hotwords
(`self.detected_callback *= self.num_hotwords`) when `num_hotwords > 1`. -/
def normalizeCallbacks (numHotwords : Nat) (cfg : CallbackConfig) :
    List (Option Nat) :=
  let l := match cfg with
    | CallbackConfig.single c => [c]
    | CallbackConfig.list l => l
  if l.length = 1 ∧ 1 < numHotwords then (List.replicate numHotwords l).flatten
  else l

/-- Observable actions of one pass through the `while` body (lines 173-194),
in program order. -/
inductive Event where
  | interruptCheck : Bool → Event
  | drain : List Nat → Event
  | engineCall : List Nat → Event
  | callbackCall : Nat → Event
  | sleep : Event
  deriving Repr, DecidableEq

/-- How an iteration of the `while` body ends. -/
inductive Outcome where
  | next
  | exit
  | crash
  deriving Repr, DecidableEq

/-- One iteration of the `while not self.kill_received` body (lines 174-194),
given the detector's `paused` flag, the value the `interrupt_check()` call
would return, the ring-buffer content `get()` would drain, and the engine
answer `RunDetection` would return for it.  `Outcome.exit` is the `break` at
line 177; `Outcome.crash` is an uncaught `IndexError` on
`self.detected_callback[ans-1]` (line 189, unreachable once the entry assert
holds and the engine answer is in range). -/
def loopIter (callbacks : List (Option Nat)) (paused : Bool) (interrupt : Bool)
    (bufData : List Nat) (ans : Int) : List Event × Outcome :=
  if paused then ([Event.sleep], Outcome.next)
  else if interrupt then ([Event.interruptCheck true], Outcome.exit)
  else
    let e1 := [Event.interruptCheck false, Event.drain bufData]
    if bufData.length = 0 then (e1 ++ [Event.sleep], Outcome.next)
    else
      let e2 := e1 ++ [Event.engineCall bufData]
      if ans = -1 then (e2, Outcome.next)
      else if 0 < ans then
        match callbacks[ans.toNat - 1]? with
        | some (some cb) => (e2 ++ [Event.callbackCall cb], Outcome.next)
        | some none => (e2, Outcome.next)
        | none => (e2, Outcome.crash)
      else (e2, Outcome.next)

/-- The `while not self.kill_received` loop (lines 173-196), driven by
oracles: `kill n` / `paused n` give the flag values read at iteration `n`
(other threads may set them at any time), `intr j` the value returned by the
`j`-th `interrupt_check()` call the method makes, `buf n` the ring-buffer
content at iteration `n`, `ans n` the engine answer there.  `fuel` bounds how
many iterations are modelled — the loop itself may run forever.  `n` is the
iteration index and `ic` the count of `interrupt_check()` calls made so far
(a paused iteration makes none). -/
def runLoop (callbacks : List (Option Nat)) (kill paused : Nat → Bool)
    (intr : Nat → Bool) (buf : Nat → List Nat) (ans : Nat → Int) :
    Nat → Nat → Nat → List Event
  | 0, _, _ => []
  | fuel + 1, n, ic =>
    if kill n then []
    else
      let r := loopIter callbacks (paused n) (intr ic) (buf n) (ans n)
      let ic' := if paused n then ic else ic + 1
      match r.2 with
      | Outcome.next => r.1 ++ runLoop callbacks kill paused intr buf ans fuel (n + 1) ic'
      | _ => r.1

/-- `run` (lines 157-196): the early interrupt return (lines 157-159), the
callback normalization (161-165), the count assertion (167-169) modelled as
`Except.error`, then the loop.  `intr 0` is the `interrupt_check()` call at
line 157; the loop's own calls consume `intr 1`, `intr 2`, ... -/
def run (numHotwords : Nat) (cfg : CallbackConfig) (kill paused : Nat → Bool)
    (intr : Nat → Bool) (buf : Nat → List Nat) (ans : Nat → Int) (fuel : Nat) :
    Except String (List Event) :=
  if intr 0 then Except.ok []
  else
    let cbs := normalizeCallbacks numHotwords cfg
    if numHotwords = cbs.length then
      Except.ok (runLoop cbs kill paused intr buf ans fuel 0 1)
    else
      Except.error "Error: hotwords in your models do not match the number of callbacks"

deriving instance DecidableEq for Except

/-- `Except.error`-detector used to state "a configuration error is raised". -/
def isError {α : Type} (x : Except String α) : Bool :=
  match x with
  | Except.error _ => true
  | Except.ok _ => false

/-! ### Supporting lemmas -/

theorem padLoopF_eq : ∀ (fuel num : Nat) (s : List ℚ),
    s.length < num → num ≤ s.length + fuel →
    padLoopF fuel num s = s ++ List.replicate (num - s.length) ((1 : ℚ)/2) := by
  intro fuel
  induction fuel with
  | zero => intro num s h1 h2; omega
  | succ fuel ih =>
    intro num s h1 h2
    unfold padLoopF
    by_cases h : (s ++ [(1 : ℚ)/2]).length = num
    · rw [if_pos h]
      have hn : num - s.length = 1 := by
        simp only [List.length_append, List.length_cons, List.length_nil] at h
        omega
      rw [hn]
      simp
    · rw [if_neg h]
      have hlen : (s ++ [(1 : ℚ)/2]).length = s.length + 1 := by simp
      have h1' : (s ++ [(1 : ℚ)/2]).length < num := by
        rw [hlen]; rw [hlen] at h; omega
      have h2' : num ≤ (s ++ [(1 : ℚ)/2]).length + fuel := by rw [hlen]; omega
      rw [ih num _ h1' h2', List.append_assoc, hlen]
      congr 1
      have hrepl : num - s.length = (num - (s.length + 1)) + 1 := by omega
      rw [hrepl]
      simp [List.replicate_succ]

theorem padLoop_eq (num : Nat) (s : List ℚ) (h : s.length < num) :
    padLoop num s = s ++ List.replicate (num - s.length) ((1 : ℚ)/2) :=
  padLoopF_eq num num s h (by omega)

theorem initSensitivity_error_iff (m n : Nat) (s : List ℚ) :
    isError (initSensitivity m n s) = true ↔ n < s.length := by
  unfold initSensitivity
  by_cases h : n < s.length
  · rw [if_pos h]; simp [isError, h]
  · rw [if_neg h]; simp [isError, h]

theorem flatten_replicate_singleton {α : Type} (n : Nat) (a : α) :
    (List.replicate n [a]).flatten = List.replicate n a := by
  induction n with
  | zero => rfl
  | succ n ih => simp [List.replicate_succ, ih]

/-! ### The claims -/

/-- C2 (amended): for a single supplied sensitivity value `v` and `n ≥ 2`
hotword slots, the effective sensitivity list handed to the engine has length
`n`, but it is `v` followed by `n - 1` copies of the default `0.5` — the
padding loop at lines 98-103 fills the missing slots with `0.5` before the
broadcast at lines 105-106 is reached, so the broadcast never fires. -/
theorem initSensitivity_single_value (m n : Nat) (v : ℚ) (hn : 2 ≤ n) :
    initSensitivity m n [v]
      = Except.ok (v :: List.replicate (n - 1) ((1 : ℚ)/2)) := by
  have hlt : ([v] : List ℚ).length < n := by simp; omega
  have hpad : padLoop n [v] = [v] ++ List.replicate (n - 1) ((1 : ℚ)/2) := by
    rw [padLoop_eq n [v] hlt]
    simp
  unfold initSensitivity
  have h1 : ¬ n < ([v] : List ℚ).length := by simp; omega
  have h2 : ([v] : List ℚ).length ≠ n := by simp; omega
  have h3 : ¬ (1 < m ∧ ([v] ++ List.replicate (n - 1) ((1 : ℚ)/2)).length = 1) := by
    simp only [List.length_append, List.length_cons, List.length_nil,
      List.length_replicate]
    intro hc
    omega
  rw [if_neg h1]
  simp only [if_pos h2, hpad, if_neg h3]
  simp

/-- C2 witness: the spec's own scenario — 3 models, `sensitivity = [0.6]`. -/
theorem initSensitivity_single_value_witness :
    initSensitivity 3 3 [(3 : ℚ)/5]
      = Except.ok [(3 : ℚ)/5, (1 : ℚ)/2, (1 : ℚ)/2] := by
  rw [initSensitivity_single_value 3 3 ((3 : ℚ)/5) (by omega)]
  rfl

/-- C2 counterexample: with 3 models and `sensitivity = [0.6]` the effective
list is NOT `[0.6, 0.6, 0.6]` — the supplied value is not broadcast. -/
theorem initSensitivity_no_broadcast_cex :
    initSensitivity 3 3 [(3 : ℚ)/5]
      ≠ Except.ok [(3 : ℚ)/5, (3 : ℚ)/5, (3 : ℚ)/5] := by
  have hpad : padLoop 3 [(3 : ℚ)/5] = [(3 : ℚ)/5, (1 : ℚ)/2, (1 : ℚ)/2] := by
    rw [padLoop_eq 3 _ (by simp)]
    rfl
  unfold initSensitivity
  rw [if_neg (by simp : ¬ (3 < ([(3 : ℚ)/5] : List ℚ).length))]
  norm_num [hpad]

/-- C3: with an empty sensitivity list and 3 hotword slots, the padding loop
installs `[0.5, 0.5, 0.5]` and `SetSensitivity` IS called (line 110), contrary
to the docstring's "the default sensitivity in the model will be used"
(lines 51-54). -/
theorem initSensitivity_empty_overrides :
    initSensitivity 1 3 ([] : List ℚ)
      = Except.ok [(1 : ℚ)/2, (1 : ℚ)/2, (1 : ℚ)/2] ∧
    callsSetSensitivity 1 3 ([] : List ℚ) = true := by
  have hpad : padLoop 3 ([] : List ℚ) = [(1 : ℚ)/2, (1 : ℚ)/2, (1 : ℚ)/2] := by
    rw [padLoop_eq 3 [] (by simp)]
    rfl
  have hmain : initSensitivity 1 3 ([] : List ℚ)
      = Except.ok [(1 : ℚ)/2, (1 : ℚ)/2, (1 : ℚ)/2] := by
    unfold initSensitivity
    rw [if_neg (by simp : ¬ (3 < ([] : List ℚ).length))]
    norm_num [hpad]
  refine ⟨hmain, ?_⟩
  unfold callsSetSensitivity
  rw [hmain]
  simp

/-- C1: for every capacity `C > 0` and every sequence of appends to an
unpaused `RingBuffer` whose total byte count exceeds `C`, a single `get` at
the end returns exactly the most recent `C` bytes of the concatenated
appended data in order, and the buffer's length never exceeds `C` at any
intermediate point.  `extend` is a total function — overflowing the capacity
evicts silently and is never an error. -/
theorem ringBuffer_capacity (C : Nat) (datas : List (List Nat))
    (hC : 0 < C) (htot : C < datas.flatten.length) :
    (((RingBuffer.init C).extendAll datas).get).1
        = datas.flatten.drop (datas.flatten.length - C) ∧
    (((RingBuffer.init C).extendAll datas).get).1.length = C ∧
    ∀ i : Nat, (((RingBuffer.init C).extendAll (datas.take i)).buf).length ≤ C := by
  have hget : (((RingBuffer.init C).extendAll datas).get).1
      = ((RingBuffer.init C).extendAll datas).buf := rfl
  refine ⟨by rw [hget, extendAll_buf_init], ?_, ?_⟩
  · rw [hget, extendAll_buf_init]
    simp only [List.length_drop]
    omega
  · intro i
    rw [extendAll_buf_init C (datas.take i)]
    simp only [List.length_drop]
    omega

/-- C1 witness: capacity 2, appends `[1,2]` then `[3]` (total 3 > 2); the
drain returns the most recent 2 bytes `[2,3]`. -/
theorem ringBuffer_capacity_witness :
    (((RingBuffer.init 2).extendAll [[1, 2], [3]]).get).1 = [2, 3] ∧
    (((RingBuffer.init 2).extendAll [[1, 2], [3]]).get).1.length = 2 := by
  have h := ringBuffer_capacity 2 [[1, 2], [3]] (by decide) (by decide)
  exact ⟨by rw [h.1]; rfl, h.2.1⟩

/-- C9: bytes appended while paused are discarded and never appear in a
drain; bytes buffered before `pause()` stay and are returned by a later
drain; bytes appended after `unpause()` appear in the next drain.  The third
conjunct runs the whole scenario: append `d1`, pause, append `d2`, unpause,
append `d3`, drain — the result is `d1 ++ d3`. -/
theorem ringBuffer_pause_discards (C : Nat) (d1 d2 d3 : List Nat)
    (h13 : d1.length + d3.length ≤ C) :
    (∀ (rb : RingBuffer) (d : List Nat), ((rb.pause).extend d).buf = rb.buf) ∧
    (∀ rb : RingBuffer, ((rb.pause).get).1 = rb.buf) ∧
    (((((((RingBuffer.init C).extend d1).pause).extend d2).unpause).extend d3).get).1
        = d1 ++ d3 := by
  refine ⟨?_, ?_, ?_⟩
  · intro rb d
    simp [RingBuffer.pause, RingBuffer.extend]
  · intro rb
    simp [RingBuffer.pause, RingBuffer.get]
  · simp only [RingBuffer.init, RingBuffer.extend, RingBuffer.pause,
      RingBuffer.unpause, RingBuffer.get]
    norm_num
    rw [dequeExtend_eq_lastN C d1 [] (by simp)]
    have h1 : lastN C ([] ++ d1) = d1 := by
      unfold lastN
      have h0 : ([] ++ d1 : List Nat).length - C = 0 := by simp; omega
      rw [h0, List.drop_zero]
      simp
    rw [h1, dequeExtend_eq_lastN C d3 d1 (by omega)]
    unfold lastN
    have h0 : (d1 ++ d3).length - C = 0 := by simp; omega
    rw [h0, List.drop_zero]

/-- C9 witness: capacity 4; `[1]` buffered, `[2]` appended while paused,
`[3]` appended after unpausing; the drain returns `[1, 3]`. -/
theorem ringBuffer_pause_discards_witness :
    (((((((RingBuffer.init 4).extend [1]).pause).extend [2]).unpause).extend [3]).get).1
      = [1, 3] :=
  (ringBuffer_pause_discards 4 [1] [2] [3] (by decide)).2.2

/-- C6 counterexample: calling `terminate()` on a freshly constructed
detector leaves `kill_received` equal to `false` — the call does not set the
termination flag to true. -/
theorem terminate_not_set_flag_cex :
    ((HotwordDetector.initState 4).terminate).kill_received = false := rfl

/-- C6 (amended): `terminate()` only stops and closes the audio stream and
handle; it does not modify the termination flag.  `kill_received` starts
`false` and no operation of the module (`terminate`, `pause`, `unpause`)
ever assigns it, so in particular it is never reset once true. -/
theorem kill_received_never_modified (d : HotwordDetector) (n : Nat) :
    (d.terminate).kill_received = d.kill_received ∧
    (d.pauseD).kill_received = d.kill_received ∧
    (d.unpauseD).kill_received = d.kill_received ∧
    (HotwordDetector.initState n).kill_received = false :=
  ⟨rfl, rfl, rfl, rfl⟩

/-- C4: if every `audio.open` attempt fails with an I/O error, `open_audio`
makes the initial attempt plus exactly 5 retries (6 attempts total), sleeping
1, 2, 3, 4, 5 seconds before retries 1-5, then gives up
(`SnowboyOpenAudioException`) with no 6th retry; and any attempt that
succeeds returns at once — no further attempts or sleeps. -/
theorem open_audio_retry (ok : Nat → Bool) :
    ((∀ j, j ≤ 5 → ok j = false) → open_audio ok = ([1, 2, 3, 4, 5], 6, false)) ∧
    (∀ i fuel, ok i = true → openAudioF ok (fuel + 1) i = ([], 1, true)) := by
  constructor
  · intro h
    simp [open_audio, openAudioF, h 0 (by omega), h 1 (by omega), h 2 (by omega),
      h 3 (by omega), h 4 (by omega), h 5 (by omega)]
  · intro i fuel h
    simp [openAudioF, h]

/-- C4 witness: all attempts failing gives the 1,2,3,4,5 backoff and 6
attempts; a first-attempt success gives no sleeps and a single attempt. -/
theorem open_audio_retry_witness :
    open_audio (fun _ => false) = ([1, 2, 3, 4, 5], 6, false) ∧
    openAudioF (fun _ => true) 6 0 = ([], 1, true) :=
  ⟨(open_audio_retry (fun _ => false)).1 (fun _ _ => rfl),
   (open_audio_retry (fun _ => true)).2 0 5 rfl⟩

theorem normalizeCallbacks_single (N : Nat) (c : Option Nat) (hN : 1 ≤ N) :
    normalizeCallbacks N (CallbackConfig.single c) = List.replicate N c := by
  simp only [normalizeCallbacks]
  by_cases h : 1 < N
  · rw [if_pos ⟨rfl, h⟩]
    exact flatten_replicate_singleton N c
  · have hN1 : N = 1 := by omega
    subst hN1
    rw [if_neg (by simp)]
    rfl

theorem normalizeCallbacks_list_id (N : Nat) (l : List (Option Nat))
    (h : l.length = N) :
    normalizeCallbacks N (CallbackConfig.list l) = l := by
  simp only [normalizeCallbacks]
  rw [if_neg]
  intro hc
  omega

/-- The unpaused, uninterrupted iteration body on nonempty drained data with
a positive engine answer `k`. -/
theorem loopIter_match (cbs : List (Option Nat)) (data : List Nat) (k : Nat)
    (hk : 1 ≤ k) (hd : data ≠ []) :
    loopIter cbs false false data (k : Int)
      = ([Event.interruptCheck false, Event.drain data, Event.engineCall data]
           ++ (match cbs[k - 1]? with
               | some (some cb) => [Event.callbackCall cb]
               | _ => []),
         match cbs[k - 1]? with
         | none => Outcome.crash
         | _ => Outcome.next) := by
  have hlen : ¬ (data.length = 0) := by simpa using hd
  have hne : ¬ ((k : Int) = -1) := by omega
  have hpos : (0 : Int) < (k : Int) := by omega
  have htn : (k : Int).toNat - 1 = k - 1 := by omega
  simp only [loopIter, Bool.false_eq_true, if_false, hlen, hne, hpos, if_true, htn]
  cases hC : cbs[k - 1]? with
  | none => simp
  | some o => cases o <;> simp

/-- C5 counterexample: in a paused iteration the interruption predicate is
not evaluated at all — even with the predicate true the iteration's trace is
just the sleep, and the loop continues to the next iteration instead of
exiting. -/
theorem interrupt_skipped_when_paused_cex :
    loopIter [] true true [] 0 = ([Event.sleep], Outcome.next) ∧
    (loopIter [] true true [] 0).2 ≠ Outcome.exit := by
  constructor <;> decide

/-- C5 (amended): in every iteration where the detector is not paused, the
interruption predicate is evaluated once, before any drain or engine call
(it is the first event of the iteration's trace), and when it returns true
the iteration does nothing else and exits the loop; a paused iteration does
not evaluate the predicate but performs no drain or engine call either; and
if the predicate is already true when `run` starts, `run` returns with zero
drains and zero engine calls. -/
theorem interrupt_before_buffer (cbs : List (Option Nat)) (interrupt : Bool)
    (data : List Nat) (ans : Int) (N : Nat) (cfg : CallbackConfig)
    (kill paused : Nat → Bool) (intr : Nat → Bool) (buf : Nat → List Nat)
    (ansO : Nat → Int) (fuel : Nat) :
    loopIter cbs false true data ans = ([Event.interruptCheck true], Outcome.exit) ∧
    (loopIter cbs false interrupt data ans).1.head?
        = some (Event.interruptCheck interrupt) ∧
    loopIter cbs true interrupt data ans = ([Event.sleep], Outcome.next) ∧
    (intr 0 = true → run N cfg kill paused intr buf ansO fuel = Except.ok []) := by
  refine ⟨by simp [loopIter], ?_, by simp [loopIter], ?_⟩
  · cases interrupt with
    | true => simp [loopIter]
    | false =>
      by_cases hD : data.length = 0
      · simp [loopIter, hD]
      · by_cases hA : ans = -1
        · simp [loopIter, hD, hA]
        · by_cases hP : 0 < ans
          · cases hC : cbs[ans.toNat - 1]? with
            | none => simp [loopIter, hD, hA, hP, hC]
            | some o => cases o <;> simp [loopIter, hD, hA, hP, hC]
          · simp [loopIter, hD, hA, hP]
  · intro h
    simp [run, h]

/-- C5 witness: an unpaused iteration with the predicate true exits at once
with only the check in its trace; `run` under an immediately-true predicate
returns with an empty event trace. -/
theorem interrupt_before_buffer_witness :
    loopIter [some 3] false true [7] 1 = ([Event.interruptCheck true], Outcome.exit) ∧
    run 1 (CallbackConfig.single (some 3)) (fun _ => false) (fun _ => false)
        (fun _ => true) (fun _ => []) (fun _ => 0) 4 = Except.ok [] :=
  ⟨(interrupt_before_buffer [some 3] false [7] 1 1 (CallbackConfig.single (some 3))
      (fun _ => false) (fun _ => false) (fun _ => true) (fun _ => []) (fun _ => 0) 4).1,
   (interrupt_before_buffer [some 3] false [7] 1 1 (CallbackConfig.single (some 3))
      (fun _ => false) (fun _ => false) (fun _ => true) (fun _ => []) (fun _ => 0) 4).2.2.2
     rfl⟩

/-- C7: a configuration error is raised iff either the supplied sensitivity
count exceeds the hotword count (the always-false assert at construction,
lines 93-96 — never silent truncation) or the callback count after
single-callback broadcast differs from the hotword count (the assert at
`run` entry, lines 167-169, given that the entry interrupt check returned
false so entry is reached).  Both surface immediately to the caller as
exceptions; no retry path exists. -/
theorem config_error_iff (m n : Nat) (s : List ℚ) (cfg : CallbackConfig)
    (kill paused : Nat → Bool) (intr : Nat → Bool) (buf : Nat → List Nat)
    (ans : Nat → Int) (fuel : Nat) (hintr : intr 0 = false) :
    (isError (initSensitivity m n s) = true ↔ n < s.length) ∧
    (isError (run n cfg kill paused intr buf ans fuel) = true ↔
        (normalizeCallbacks n cfg).length ≠ n) := by
  refine ⟨initSensitivity_error_iff m n s, ?_⟩
  simp only [run, hintr, Bool.false_eq_true, if_false]
  by_cases h : n = (normalizeCallbacks n cfg).length
  · rw [if_pos h]
    simp [isError]
    omega
  · rw [if_neg h]
    simp [isError]
    omega

/-- C7 witness: 3 sensitivities for 2 hotwords fail at construction; 3
callbacks for 2 hotwords fail at loop entry (interrupt predicate false). -/
theorem config_error_iff_witness :
    isError (initSensitivity 2 2 [(7 : ℚ)/10, (7 : ℚ)/10, (7 : ℚ)/10]) = true ∧
    isError (run 2 (CallbackConfig.list [some 1, some 2, some 3]) (fun _ => false)
        (fun _ => false) (fun _ => false) (fun _ => []) (fun _ => 0) 0) = true :=
  ⟨(config_error_iff 2 2 [(7 : ℚ)/10, (7 : ℚ)/10, (7 : ℚ)/10]
      (CallbackConfig.single none) (fun _ => false) (fun _ => false) (fun _ => false)
      (fun _ => []) (fun _ => 0) 0 rfl).1.mpr (by simp),
   (config_error_iff 2 2 [] (CallbackConfig.list [some 1, some 2, some 3])
      (fun _ => false) (fun _ => false) (fun _ => false)
      (fun _ => []) (fun _ => 0) 0 rfl).2.mpr (by decide)⟩

/-- C8: after loop-entry normalization a single supplied callback is invoked
for every match index `1 ≤ k ≤ N`; with a supplied list of `N` callbacks,
`match(k)` invokes exactly the one at index `k-1`; the invocation is the
final event of the iteration's synchronous trace, occurs only when that slot
is non-null, and the iteration ends with `Outcome.next` — the loop
continues. -/
theorem callback_dispatch (N k c : Nat) (cbs : List (Option Nat)) (data : List Nat)
    (hk1 : 1 ≤ k) (hkN : k ≤ N) (hdata : data ≠ [])
    (hlen : cbs.length = N) (hc : cbs[k - 1]? = some (some c)) :
    loopIter (normalizeCallbacks N (CallbackConfig.single (some c))) false false
        data (k : Int)
      = ([Event.interruptCheck false, Event.drain data, Event.engineCall data,
          Event.callbackCall c], Outcome.next) ∧
    loopIter (normalizeCallbacks N (CallbackConfig.list cbs)) false false
        data (k : Int)
      = ([Event.interruptCheck false, Event.drain data, Event.engineCall data,
          Event.callbackCall c], Outcome.next) ∧
    (∀ cbs2 : List (Option Nat), cbs2[k - 1]? = some none →
        loopIter cbs2 false false data (k : Int)
          = ([Event.interruptCheck false, Event.drain data, Event.engineCall data],
             Outcome.next)) := by
  have hrepl : (List.replicate N (some c) : List (Option Nat))[k - 1]?
      = some (some c) := by
    rw [List.getElem?_replicate]
    have : k - 1 < N := by omega
    simp [this]
  refine ⟨?_, ?_, ?_⟩
  · rw [normalizeCallbacks_single N (some c) (by omega),
      loopIter_match _ data k hk1 hdata, hrepl]
    rfl
  · rw [normalizeCallbacks_list_id N cbs hlen, loopIter_match _ data k hk1 hdata, hc]
    rfl
  · intro cbs2 hc2
    rw [loopIter_match _ data k hk1 hdata, hc2]
    rfl

/-- C8 witness: 2 hotwords; a single callback `7` fires on match index 2, a
list `[5, 7]` fires its second entry on match index 2, and a null slot fires
nothing. -/
theorem callback_dispatch_witness :
    loopIter (normalizeCallbacks 2 (CallbackConfig.single (some 7))) false false
        [9] ((2 : Nat) : Int)
      = ([Event.interruptCheck false, Event.drain [9], Event.engineCall [9],
          Event.callbackCall 7], Outcome.next) ∧
    loopIter (normalizeCallbacks 2 (CallbackConfig.list [some 5, some 7])) false false
        [9] ((2 : Nat) : Int)
      = ([Event.interruptCheck false, Event.drain [9], Event.engineCall [9],
          Event.callbackCall 7], Outcome.next) ∧
    loopIter [some 5, none] false false [9] ((2 : Nat) : Int)
      = ([Event.interruptCheck false, Event.drain [9], Event.engineCall [9]],
         Outcome.next) := by
  have h := callback_dispatch 2 2 7 [some 5, some 7] [9] (by decide) (by decide)
    (by decide) (by decide) (by decide)
  exact ⟨h.1, h.2.1, h.2.2 [some 5, none] (by decide)⟩

/-- C10: if the interruption predicate is already true when `run` starts,
`run` returns immediately — before the callback list is normalized and
before the callback/model-count assertion — so a mismatched callback
configuration raises nothing in that case. -/
theorem early_interrupt_skips_assert (n : Nat) (cfg : CallbackConfig)
    (kill paused : Nat → Bool) (intr : Nat → Bool) (buf : Nat → List Nat)
    (ans : Nat → Int) (fuel : Nat) (hintr : intr 0 = true)
    (_hmismatch : (normalizeCallbacks n cfg).length ≠ n) :
    run n cfg kill paused intr buf ans fuel = Except.ok [] := by
  simp [run, hintr]

/-- C10 witness: 3 callbacks against 2 hotwords, predicate constantly true:
`run` still returns normally with an empty trace. -/
theorem early_interrupt_skips_assert_witness :
    run 2 (CallbackConfig.list [some 1, some 2, some 3]) (fun _ => false)
        (fun _ => false) (fun _ => true) (fun _ => []) (fun _ => 0) 5
      = Except.ok [] :=
  early_interrupt_skips_assert 2 (CallbackConfig.list [some 1, some 2, some 3])
    (fun _ => false) (fun _ => false) (fun _ => true) (fun _ => []) (fun _ => 0) 5
    rfl (by decide)

end Snowboy
